import Mathlib

/-!
Shallow embedding of the Digidad messaging core
(src/client/dist/supabase-config.js, class SupabaseClient) and proofs about
its behaviour.  Database tables are modelled as Lean lists of rows; each
client method becomes a pure function from the relevant table state (plus the
`currentUser` field of the client) to the new state and the returned result.
Timestamps are naturals, user ids are strings (UUIDs in the source).
-/

namespace Digidad

/-- Row of the `users` table (the columns the modelled operations touch). -/
structure UserRow where
  id : String
  phone : String
  name : String
deriving Repr, DecidableEq

/-- Row of the `messages` table. -/
structure Message where
  id : Nat
  from_user_id : String
  to_user_id : String
  content : String
  message_type : String
  reply_to_message_id : Option Nat
  file_url : Option String
  file_name : Option String
  file_size : Option Nat
  created_at : Nat
  is_edited : Bool
  is_deleted : Bool
deriving Repr, DecidableEq

/-- Row of the `user_chats` table (the per-(owner, peer) chat summary). -/
structure ChatSummary where
  owner_id : String
  peer_id : String
  last_message_content : String
  last_message_timestamp : Nat
  unread_count : Nat
  is_archived : Bool
deriving Repr, DecidableEq

/-! ## findUserByPhone (supabase-config.js lines 619-719) -/

/-- Embeds `phone.replace(/\D/g, '')`: keep only the digit characters. -/
def digitsOnly (s : String) : List Char :=
  s.toList.filter Char.isDigit

/-- Embeds `digitsOnly.slice(-10)`: the last 10 characters (the whole list
when it is shorter than 10). -/
def lastTen (l : List Char) : List Char :=
  l.drop (l.length - 10)

/-- Result of `findUserByPhone`: `{status:'found', user, allResults}` or
`{status:'not_found'}` (the catch-all error branch is not reachable in the
pure model, where the query itself does not throw). -/
inductive FindResult where
  | found (user : UserRow) (allResults : List UserRow)
  | not_found
deriving Repr, DecidableEq

/-- Embeds the dummy UUID used when `this.currentUser` is null:
`this.currentUser?.id || '00000000-0000-0000-0000-000000000000'`. -/
def nullUserId : String := "00000000-0000-0000-0000-000000000000"

/-- Embeds `SupabaseClient.findUserByPhone(phone)` over the `users` table:
strip non-digits, take the last 10 digits, return `not_found` when fewer
than 10 digits remain, otherwise run
`like('phone', end-pattern).neq('id', currentUser?.id || nullUserId).limit(5)`
and return the first match with the full result list, or `not_found` when
the query returns no rows. -/
def findUserByPhone (users : List UserRow) (currentUserId : Option String)
    (phone : String) : FindResult :=
  let last10Digits := lastTen (digitsOnly phone)
  if last10Digits.length < 10 then
    FindResult.not_found
  else
    let excluded := currentUserId.getD nullUserId
    let rows := (users.filter
      (fun u => last10Digits.isSuffixOf u.phone.toList && u.id != excluded)).take 5
    match rows with
    | [] => FindResult.not_found
    | u :: _ => FindResult.found u rows

theorem findUserByPhone_congr (users : List UserRow) (cur : Option String)
    (a b : String) (h : lastTen (digitsOnly a) = lastTen (digitsOnly b)) :
    findUserByPhone users cur a = findUserByPhone users cur b := by
  unfold findUserByPhone
  rw [h]

theorem findUserByPhone_short (users : List UserRow) (cur : Option String)
    (s : String) (h : (digitsOnly s).length < 10) :
    findUserByPhone users cur s = FindResult.not_found := by
  have hl : (lastTen (digitsOnly s)).length < 10 := by
    simp only [lastTen, List.length_drop]
    omega
  simp [findUserByPhone, hl]

theorem findUserByPhone_found_spec (users : List UserRow) (cur : Option String)
    (s : String) (u : UserRow) (l : List UserRow)
    (h : findUserByPhone users cur s = FindResult.found u l) :
    u ∈ l ∧ ∀ v ∈ l, (lastTen (digitsOnly s)).isSuffixOf v.phone.toList = true
      ∧ v.id ≠ cur.getD nullUserId := by
  by_cases hlen : (lastTen (digitsOnly s)).length < 10
  · simp [findUserByPhone, hlen] at h
  · simp only [findUserByPhone, if_neg hlen] at h
    cases hrows : (users.filter (fun v =>
        (lastTen (digitsOnly s)).isSuffixOf v.phone.toList
          && v.id != cur.getD nullUserId)).take 5 with
    | nil =>
      rw [hrows] at h
      exact absurd h (by simp)
    | cons w t =>
      rw [hrows] at h
      injection h with h1 h2
      subst h1
      subst h2
      refine ⟨List.mem_cons_self _ _, ?_⟩
      intro v hv
      have hvf : v ∈ users.filter (fun v =>
          (lastTen (digitsOnly s)).isSuffixOf v.phone.toList
            && v.id != cur.getD nullUserId) :=
        List.mem_of_mem_take (by rw [hrows]; exact hv)
      have hpv := List.of_mem_filter hvf
      rw [Bool.and_eq_true] at hpv
      refine ⟨hpv.1, ?_⟩
      simpa using hpv.2

/-- C2: user search normalizes the input to digits, matches stored users whose
phone column ends with the input's last 10 digits (so "+1 (555) 123-4567" and
"5551234567" yield identical search results), and returns not-found whenever
the input has fewer than 10 digits. -/
theorem phone_search_normalizes :
    (∀ users cur, findUserByPhone users cur "+1 (555) 123-4567"
        = findUserByPhone users cur "5551234567")
    ∧ (∀ users cur s, (digitsOnly s).length < 10 →
        findUserByPhone users cur s = FindResult.not_found)
    ∧ (∀ users cur s u l, findUserByPhone users cur s = FindResult.found u l →
        (lastTen (digitsOnly s)).isSuffixOf u.phone.toList = true) := by
  refine ⟨?_, ?_, ?_⟩
  · intro users cur
    exact findUserByPhone_congr users cur _ _ (by decide)
  · intro users cur s h
    exact findUserByPhone_short users cur s h
  · intro users cur s u l h
    have hspec := findUserByPhone_found_spec users cur s u l h
    exact (hspec.2 u hspec.1).1

/-- Closed witness for phone_search_normalizes at concrete inputs: a stored
user with phone "+915551234567" is found by both formatted and bare inputs,
and an 8-digit input returns not-found. -/
theorem phone_search_normalizes_witness :
    (findUserByPhone [⟨"u1", "+915551234567", "A"⟩] (some "me") "+1 (555) 123-4567"
        = findUserByPhone [⟨"u1", "+915551234567", "A"⟩] (some "me") "5551234567")
    ∧ (findUserByPhone [⟨"u1", "+915551234567", "A"⟩] (some "me") "12345678"
        = FindResult.not_found)
    ∧ ((lastTen (digitsOnly "5551234567")).isSuffixOf
        (String.toList "+915551234567") = true) :=
  ⟨phone_search_normalizes.1 [⟨"u1", "+915551234567", "A"⟩] (some "me"),
   phone_search_normalizes.2.1 [⟨"u1", "+915551234567", "A"⟩] (some "me")
     "12345678" (by decide),
   phone_search_normalizes.2.2 [⟨"u1", "+915551234567", "A"⟩] (some "me")
     "5551234567" ⟨"u1", "+915551234567", "A"⟩ [⟨"u1", "+915551234567", "A"⟩]
     (by decide)⟩

/-- C10: findUserByPhone never returns the searching user: every result of a
search by an authenticated user excludes that user's id, and a user searching
their own phone number receives not_found even when their own row matches the
last-10-digit suffix. -/
theorem phone_search_excludes_self :
    (∀ users cur phone u l,
        findUserByPhone users (some cur) phone = FindResult.found u l →
        ∀ v ∈ l, v.id ≠ cur)
    ∧ findUserByPhone [⟨"me", "5551234567", "Me"⟩] (some "me") "5551234567"
        = FindResult.not_found := by
  constructor
  · intro users cur phone u l h v hv
    have hspec := findUserByPhone_found_spec users (some cur) phone u l h
    simpa using (hspec.2 v hv).2
  · decide

/-- Closed witness for phone_search_excludes_self: the single found user in a
concrete search differs from the searching user's id. -/
theorem phone_search_excludes_self_witness :
    UserRow.id ⟨"u1", "+915551234567", "A"⟩ ≠ "me" :=
  phone_search_excludes_self.1 [⟨"u1", "+915551234567", "A"⟩] "me" "5551234567"
    ⟨"u1", "+915551234567", "A"⟩ [⟨"u1", "+915551234567", "A"⟩] (by decide)
    ⟨"u1", "+915551234567", "A"⟩ (by decide)

/-! ## sendMessage (supabase-config.js lines 728-786) -/

/-- File metadata attached to a file-type message (`fileData` argument). -/
structure FileData where
  url : String
  name : String
  size : Nat
deriving Repr, DecidableEq

/-- Result of `sendMessage`: `{status:'sent', message}` or
`{status:'error', message}`. -/
inductive SendResult where
  | sent (message : Message)
  | error (msg : String)
deriving Repr, DecidableEq

/-- Embeds the `messageData` object built by `sendMessage` plus the columns
filled in by the database on insert (fresh `id`, `created_at`, and the flag
defaults `is_edited = is_deleted = false`). -/
def mkMessage (senderId toUserId content messageType : String)
    (replyTo : Option Nat) (fileData : Option FileData)
    (freshId now : Nat) : Message :=
  { id := freshId, from_user_id := senderId, to_user_id := toUserId,
    content := content, message_type := messageType,
    reply_to_message_id := replyTo,
    file_url := fileData.map FileData.url,
    file_name := fileData.map FileData.name,
    file_size := fileData.map FileData.size,
    created_at := now, is_edited := false, is_deleted := false }

/-- Embeds `SupabaseClient.sendMessage(toUserId, content, messageType,
replyToMessageId, fileData)` over the `messages` table.  Apart from the
`currentUser` null check the method performs no validation: it builds
`messageData` from its arguments unchanged and inserts the row. -/
def sendMessage (msgs : List Message) (currentUser : Option String)
    (toUserId content messageType : String) (replyTo : Option Nat)
    (fileData : Option FileData) (freshId now : Nat) :
    List Message × SendResult :=
  match currentUser with
  | none => (msgs, SendResult.error "No authenticated user")
  | some uid =>
      let m := mkMessage uid toUserId content messageType replyTo fileData freshId now
      (msgs ++ [m], SendResult.sent m)

/-! ## editMessage (lines 893-921) and deleteMessage (lines 926-948) -/

/-- Result of `editMessage`. -/
inductive EditResult where
  | success (message : Message)
  | error (msg : String)
deriving Repr, DecidableEq

/-- Result of `deleteMessage` (its happy path returns only `{status:'success'}`,
with no row payload). -/
inductive DeleteResult where
  | success
  | error (msg : String)
deriving Repr, DecidableEq

/-- The row filter `eq('id', messageId).eq('from_user_id', currentUser.id)`
shared by `editMessage` and `deleteMessage`. -/
def ownRowMatch (currentUserId : String) (messageId : Nat) (m : Message) : Bool :=
  m.id == messageId && m.from_user_id == currentUserId

/-- Embeds `SupabaseClient.editMessage(messageId, newContent)`: update
`content`/`is_edited` on the rows matching `ownRowMatch`, then `.single()`
succeeds only when exactly one row was returned — zero matched rows leave the
table unchanged and surface the PostgREST single-object error, which the
catch block converts to `{status:'error'}`. -/
def editMessage (msgs : List Message) (currentUserId : String) (messageId : Nat)
    (newContent : String) : List Message × EditResult :=
  let updated := msgs.map (fun m => if ownRowMatch currentUserId messageId m
      then { m with content := newContent, is_edited := true } else m)
  match msgs.filter (ownRowMatch currentUserId messageId) with
  | [m] => (updated,
      EditResult.success { m with content := newContent, is_edited := true })
  | _ => (updated, EditResult.error "JSON object requested, multiple (or no) rows returned")

/-- Embeds `SupabaseClient.deleteMessage(messageId)`: set `is_deleted = true`
on the rows matching `ownRowMatch`.  There is no `.single()` and an update
matching zero rows is not a PostgREST error, so the call reports
`{status:'success'}` regardless of whether any row matched. -/
def deleteMessage (msgs : List Message) (currentUserId : String)
    (messageId : Nat) : List Message × DeleteResult :=
  (msgs.map (fun m => if ownRowMatch currentUserId messageId m
      then { m with is_deleted := true } else m),
   DeleteResult.success)

/-! ## getMessages (lines 791-867) -/

/-- The `options` argument of `getMessages` with its source defaults. -/
structure ListOptions where
  limit : Nat := 50
  beforeTimestamp : Option Nat := none
  afterTimestamp : Option Nat := none
deriving Repr, DecidableEq

/-- The bidirectional pair filter of the `.or(...)` clause. -/
def msgInChat (currentUserId peerId : String) (m : Message) : Bool :=
  (m.from_user_id == currentUserId && m.to_user_id == peerId)
    || (m.from_user_id == peerId && m.to_user_id == currentUserId)

/-- The full row filter of the `getMessages` query:
`eq('is_deleted', false)`, the pair clause, and the optional
`lt('created_at', beforeTimestamp)` / `gt('created_at', afterTimestamp)`. -/
def msgSelected (currentUserId peerId : String) (opts : ListOptions)
    (m : Message) : Bool :=
  m.is_deleted == false && msgInChat currentUserId peerId m
    && (match opts.beforeTimestamp with
        | some b => decide (m.created_at < b)
        | none => true)
    && (match opts.afterTimestamp with
        | some a => decide (a < m.created_at)
        | none => true)

/-- Insert a message into a list kept sorted by `created_at` descending. -/
def insertDesc (m : Message) : List Message → List Message
  | [] => [m]
  | x :: xs =>
      if x.created_at ≤ m.created_at then m :: x :: xs
      else x :: insertDesc m xs

/-- Embeds `.order('created_at', { ascending: false })`. -/
def sortDesc : List Message → List Message
  | [] => []
  | x :: xs => insertDesc x (sortDesc xs)

/-- The per-row projection built by `getMessages` for the frontend (`from`
becomes `fromUser`; the `seen`/`replyTo` enrichment fields are carried by the
same row and omitted here). -/
structure FormattedMessage where
  id : Nat
  fromUser : String
  msg : String
  ts : Nat
  messageType : String
  fileUrl : Option String
  fileName : Option String
deriving Repr, DecidableEq

def formatMessage (m : Message) : FormattedMessage :=
  { id := m.id, fromUser := m.from_user_id, msg := m.content,
    ts := m.created_at, messageType := m.message_type,
    fileUrl := m.file_url, fileName := m.file_name }

/-- Successful result of `getMessages`. -/
structure MessagesPage where
  messages : List FormattedMessage
  hasMore : Bool
deriving Repr, DecidableEq

/-- Embeds `SupabaseClient.getMessages(peerId, options)`: filter, order by
`created_at` descending, `limit(limit)`, then `data.reverse().map(format)`
with `hasMore = (data.length === limit)`. -/
def getMessages (msgs : List Message) (currentUserId peerId : String)
    (opts : ListOptions) : MessagesPage :=
  let page := (sortDesc (msgs.filter (msgSelected currentUserId peerId opts))).take
    opts.limit
  { messages := page.reverse.map formatMessage,
    hasMore := page.length == opts.limit }

/-! ## markMessagesAsRead (lines 872-888) -/

/-- Embeds `SupabaseClient.markMessagesAsRead(peerId)`: update `user_chats`
setting `unread_count = 0` on the rows with
`owner_id = currentUser.id` and `peer_id = peerId`. -/
def markMessagesAsRead (chats : List ChatSummary) (currentUserId peerId : String) :
    List ChatSummary :=
  chats.map (fun c => if c.owner_id == currentUserId && c.peer_id == peerId
      then { c with unread_count := 0 } else c)

/-- Unread count recorded for the (owner, peer) summary row (0 when the row
does not exist). -/
def unreadCount (chats : List ChatSummary) (ownerId peerId : String) : Nat :=
  match chats.find? (fun c => c.owner_id == ownerId && c.peer_id == peerId) with
  | some c => c.unread_count
  | none => 0

/-! ## deleteChat (lines 1213-1241) -/

/-- The row filter of the `messages` delete inside `deleteChat`:
`.or(from_user_id.eq.cur, to_user_id.eq.cur).eq('from_user_id', peerId)` —
PostgREST combines the chained clauses with AND. -/
def deleteChatMatch (currentUserId peerId : String) (m : Message) : Bool :=
  (m.from_user_id == currentUserId || m.to_user_id == currentUserId)
    && m.from_user_id == peerId

/-- Embeds `SupabaseClient.deleteChat(peerId)`: physically delete the matching
`messages` rows and the owner's `user_chats` row. -/
def deleteChat (msgs : List Message) (chats : List ChatSummary)
    (currentUserId peerId : String) : List Message × List ChatSummary :=
  (msgs.filter (fun m => !(deleteChatMatch currentUserId peerId m)),
   chats.filter (fun c => !(c.owner_id == currentUserId && c.peer_id == peerId)))

/-! ## Ordering facts about the embedded query -/

theorem insertDesc_perm (m : Message) (l : List Message) :
    List.Perm (insertDesc m l) (m :: l) := by
  induction l with
  | nil => exact List.Perm.refl _
  | cons x xs ih =>
    by_cases h : x.created_at ≤ m.created_at
    · simp [insertDesc, h]
    · simp only [insertDesc, if_neg h]
      exact List.Perm.trans (List.Perm.cons x ih) (List.Perm.swap m x xs)

theorem sortDesc_perm (l : List Message) : List.Perm (sortDesc l) l := by
  induction l with
  | nil => exact List.Perm.refl _
  | cons x xs ih =>
    exact List.Perm.trans (insertDesc_perm x (sortDesc xs)) (List.Perm.cons x ih)

theorem insertDesc_pairwise (m : Message) (l : List Message)
    (h : l.Pairwise (fun a b => b.created_at ≤ a.created_at)) :
    (insertDesc m l).Pairwise (fun a b => b.created_at ≤ a.created_at) := by
  induction l with
  | nil => simp [insertDesc]
  | cons x xs ih =>
    rw [List.pairwise_cons] at h
    obtain ⟨hx, hxs⟩ := h
    by_cases hc : x.created_at ≤ m.created_at
    · simp only [insertDesc, if_pos hc]
      refine List.Pairwise.cons ?_ (List.Pairwise.cons hx hxs)
      intro b hb
      rcases List.mem_cons.mp hb with rfl | hb
      · exact hc
      · exact le_trans (hx b hb) hc
    · simp only [insertDesc, if_neg hc]
      refine List.Pairwise.cons ?_ (ih hxs)
      intro b hb
      rcases List.mem_cons.mp ((insertDesc_perm m xs).mem_iff.mp hb) with rfl | hb
      · exact Nat.le_of_lt (Nat.lt_of_not_le hc)
      · exact hx b hb

theorem sortDesc_pairwise (l : List Message) :
    (sortDesc l).Pairwise (fun a b => b.created_at ≤ a.created_at) := by
  induction l with
  | nil => exact List.Pairwise.nil
  | cons x xs ih => exact insertDesc_pairwise x (sortDesc xs) ih

theorem getMessages_mem (msgs : List Message) (cur peer : String)
    (opts : ListOptions) (f : FormattedMessage)
    (hf : f ∈ (getMessages msgs cur peer opts).messages) :
    ∃ m, m ∈ msgs ∧ msgSelected cur peer opts m = true ∧ formatMessage m = f := by
  simp only [getMessages, List.mem_map, List.mem_reverse] at hf
  obtain ⟨m, hm, hfm⟩ := hf
  have hm2 : m ∈ sortDesc (msgs.filter (msgSelected cur peer opts)) :=
    List.mem_of_mem_take hm
  have hm3 : m ∈ msgs.filter (msgSelected cur peer opts) :=
    (sortDesc_perm _).mem_iff.mp hm2
  exact ⟨m, (List.mem_filter.mp hm3).1, (List.mem_filter.mp hm3).2, hfm⟩

theorem getMessages_sorted (msgs : List Message) (cur peer : String)
    (opts : ListOptions) :
    (getMessages msgs cur peer opts).messages.Pairwise (fun a b => a.ts ≤ b.ts) := by
  have hs := sortDesc_pairwise (msgs.filter (msgSelected cur peer opts))
  have ht := List.Pairwise.sublist
    (List.take_sublist opts.limit (sortDesc (msgs.filter (msgSelected cur peer opts)))) hs
  simp only [getMessages]
  rw [List.pairwise_map, List.pairwise_reverse]
  exact ht.imp (fun hab => hab)

/-- C4: getMessages returns only non-deleted messages exchanged between the
two users, in ascending order of creation timestamp, and its hasMore flag is
true exactly when the number of returned messages equals the requested
limit. -/
theorem list_messages_page_spec :
    (∀ msgs cur peer opts f, f ∈ (getMessages msgs cur peer opts).messages →
        ∃ m, m ∈ msgs ∧ m.is_deleted = false ∧ msgInChat cur peer m = true
          ∧ formatMessage m = f)
    ∧ (∀ msgs cur peer opts,
        (getMessages msgs cur peer opts).messages.Pairwise (fun a b => a.ts ≤ b.ts))
    ∧ (∀ msgs cur peer opts,
        (getMessages msgs cur peer opts).hasMore = true
          ↔ (getMessages msgs cur peer opts).messages.length = opts.limit) := by
  refine ⟨?_, getMessages_sorted, ?_⟩
  · intro msgs cur peer opts f hf
    obtain ⟨m, hm, hsel, hfm⟩ := getMessages_mem msgs cur peer opts f hf
    simp only [msgSelected, Bool.and_eq_true, beq_iff_eq] at hsel
    exact ⟨m, hm, hsel.1.1.1, hsel.1.1.2, hfm⟩
  · intro msgs cur peer opts
    simp [getMessages]

/-- Closed witness for list_messages_page_spec: over a two-row table where one
row is soft-deleted, the single returned row is the live one, and the page of
limit 1 reports hasMore. -/
theorem list_messages_page_spec_witness :
    (∃ m, m ∈ [(⟨1, "a", "b", "hi", "text", none, none, none, none, 5, false, false⟩ : Message),
               ⟨2, "b", "a", "yo", "text", none, none, none, none, 6, false, true⟩]
        ∧ m.is_deleted = false ∧ msgInChat "a" "b" m = true
        ∧ formatMessage m
          = ⟨1, "a", "hi", 5, "text", none, none⟩)
    ∧ ((getMessages [⟨1, "a", "b", "hi", "text", none, none, none, none, 5, false, false⟩]
          "a" "b" ⟨1, none, none⟩).hasMore = true
        ↔ (getMessages [⟨1, "a", "b", "hi", "text", none, none, none, none, 5, false, false⟩]
          "a" "b" ⟨1, none, none⟩).messages.length = 1) :=
  ⟨list_messages_page_spec.1
      [⟨1, "a", "b", "hi", "text", none, none, none, none, 5, false, false⟩,
       ⟨2, "b", "a", "yo", "text", none, none, none, none, 6, false, true⟩]
      "a" "b" ⟨50, none, none⟩ ⟨1, "a", "hi", 5, "text", none, none⟩ (by decide),
   list_messages_page_spec.2.2
      [⟨1, "a", "b", "hi", "text", none, none, none, none, 5, false, false⟩]
      "a" "b" ⟨1, none, none⟩⟩

/-! ## Authorization behaviour of editMessage / deleteMessage -/

theorem map_id_of_fix {α : Type} (l : List α) (f : α → α) (hf : ∀ a ∈ l, f a = a) :
    l.map f = l := by
  calc l.map f = l.map id := List.map_congr_left hf
    _ = l := l.map_id

/-- C3 counterexample: a soft-delete request by a user who is not the
message's sender reports plain success (the zero-row update is not an error),
refuting the claim that it fails with a Forbidden error. -/
theorem non_sender_delete_reports_success :
    (deleteMessage [⟨1, "alice", "bob", "hi", "text", none, none, none, none, 0, false, false⟩]
        "bob" 1).2 = DeleteResult.success
    ∧ "bob" ≠ Message.from_user_id
        ⟨1, "alice", "bob", "hi", "text", none, none, none, none, 0, false, false⟩
    ∧ (deleteMessage [⟨1, "alice", "bob", "hi", "text", none, none, none, none, 0, false, false⟩]
        "bob" 1).1
      = [⟨1, "alice", "bob", "hi", "text", none, none, none, none, 0, false, false⟩] := by
  decide

/-- C3 amended: for every message and every user who is not its original
sender (ids being unique), an edit request by that user returns an error (the
single-object failure, not a typed Forbidden) and a soft-delete request
returns success; in both cases the messages table is left unchanged. -/
theorem edit_delete_by_non_sender (msgs : List Message) (m : Message)
    (user newContent : String) (hm : m ∈ msgs)
    (hid : ∀ m' ∈ msgs, m'.id = m.id → m' = m)
    (hsender : user ≠ m.from_user_id) :
    (editMessage msgs user m.id newContent).1 = msgs
    ∧ (∃ e, (editMessage msgs user m.id newContent).2 = EditResult.error e)
    ∧ (deleteMessage msgs user m.id).1 = msgs
    ∧ (deleteMessage msgs user m.id).2 = DeleteResult.success := by
  have hfalse : ∀ m' ∈ msgs, ownRowMatch user m.id m' = false := by
    intro m' hm'
    by_cases h : m'.id = m.id
    · have hmm : m' = m := hid m' hm' h
      subst hmm
      simp only [ownRowMatch, Bool.and_eq_false_iff]
      right
      rw [beq_eq_false_iff_ne]
      exact fun hh => hsender hh.symm
    · simp [ownRowMatch, h]
  have hfilter : msgs.filter (ownRowMatch user m.id) = [] := by
    rw [List.filter_eq_nil_iff]
    intro a ha
    simp [hfalse a ha]
  have hmap : ∀ (f : Message → Message),
      msgs.map (fun m' => if ownRowMatch user m.id m' then f m' else m') = msgs :=
    fun f => map_id_of_fix msgs _ (fun a ha => by simp [hfalse a ha])
  refine ⟨?_, ?_, ?_, rfl⟩
  · simp only [editMessage, hfilter]
    exact hmap _
  · simp only [editMessage, hfilter]
    exact ⟨_, rfl⟩
  · simp only [deleteMessage, ownRowMatch]
    exact hmap _

/-- Closed witness for edit_delete_by_non_sender: user "bob" neither edits nor
deletes Alice's message. -/
theorem edit_delete_by_non_sender_witness :
    (editMessage [⟨1, "alice", "bob", "hi", "text", none, none, none, none, 0, false, false⟩]
        "bob" 1 "changed").1
      = [⟨1, "alice", "bob", "hi", "text", none, none, none, none, 0, false, false⟩]
    ∧ (∃ e, (editMessage [⟨1, "alice", "bob", "hi", "text", none, none, none, none, 0, false, false⟩]
        "bob" 1 "changed").2 = EditResult.error e)
    ∧ (deleteMessage [⟨1, "alice", "bob", "hi", "text", none, none, none, none, 0, false, false⟩]
        "bob" 1).1
      = [⟨1, "alice", "bob", "hi", "text", none, none, none, none, 0, false, false⟩]
    ∧ (deleteMessage [⟨1, "alice", "bob", "hi", "text", none, none, none, none, 0, false, false⟩]
        "bob" 1).2 = DeleteResult.success :=
  edit_delete_by_non_sender
    [⟨1, "alice", "bob", "hi", "text", none, none, none, none, 0, false, false⟩]
    ⟨1, "alice", "bob", "hi", "text", none, none, none, none, 0, false, false⟩
    "bob" "changed" (by decide) (by decide) (by decide)

/-! ## Soft delete versus deleteChat -/

/-- C5 counterexample: deleteChat physically removes a Message row — after
`deleteChat` by "alice" on the chat with "bob", Bob's message row is gone from
the table entirely, refuting the claim that no operation ever physically
removes a Message row. -/
theorem delete_chat_removes_rows_cex :
    (deleteChat [⟨1, "bob", "alice", "hi", "text", none, none, none, none, 0, false, false⟩]
        [] "alice" "bob").1 = []
    ∧ deleteChatMatch "alice" "bob"
        ⟨1, "bob", "alice", "hi", "text", none, none, none, none, 0, false, false⟩ = true := by
  decide

/-- C5 amended: deleteMessage is a soft delete — it keeps every row (same
length, same identifying fields) and only flips the deleted flag — and
getMessages never returns a soft-deleted row; however deleteChat does
physically remove the message rows matching its filter. -/
theorem soft_delete_except_delete_chat :
    (∀ msgs cur mid, (deleteMessage msgs cur mid).1.length = msgs.length)
    ∧ (∀ msgs cur mid m, m ∈ msgs → ∃ m', m' ∈ (deleteMessage msgs cur mid).1
        ∧ m'.id = m.id ∧ m'.from_user_id = m.from_user_id
        ∧ m'.to_user_id = m.to_user_id ∧ m'.content = m.content)
    ∧ (∀ msgs cur peer opts f, f ∈ (getMessages msgs cur peer opts).messages →
        ∃ m, m ∈ msgs ∧ m.is_deleted = false ∧ formatMessage m = f)
    ∧ (∀ msgs chats cur peer m, m ∈ msgs → deleteChatMatch cur peer m = true →
        m ∉ (deleteChat msgs chats cur peer).1) := by
  refine ⟨?_, ?_, ?_, ?_⟩
  · intro msgs cur mid
    simp [deleteMessage]
  · intro msgs cur mid m hm
    refine ⟨(fun x => if ownRowMatch cur mid x then { x with is_deleted := true } else x) m,
      List.mem_map_of_mem _ hm, ?_⟩
    by_cases h : ownRowMatch cur mid m = true
    · simp [h]
    · simp [h]
  · intro msgs cur peer opts f hf
    obtain ⟨m, hm, hsel, hfm⟩ := getMessages_mem msgs cur peer opts f hf
    simp only [msgSelected, Bool.and_eq_true, beq_iff_eq] at hsel
    exact ⟨m, hm, hsel.1.1.1, hfm⟩
  · intro msgs chats cur peer m hm hmatch hmem
    have := (List.mem_filter.mp hmem).2
    rw [hmatch] at this
    simp at this

/-- Closed witness for soft_delete_except_delete_chat at concrete inputs: the
deleted row survives deleteMessage with its fields, the page over a deleted
row traces back to a live row, and the physically deleted row is gone. -/
theorem soft_delete_except_delete_chat_witness :
    (deleteMessage [⟨1, "a", "b", "hi", "text", none, none, none, none, 0, false, false⟩]
        "a" 1).1.length = 1
    ∧ (∃ m', m' ∈ (deleteMessage
          [⟨1, "a", "b", "hi", "text", none, none, none, none, 0, false, false⟩] "a" 1).1
        ∧ m'.id = 1 ∧ m'.from_user_id = "a" ∧ m'.to_user_id = "b" ∧ m'.content = "hi")
    ∧ (∃ m, m ∈ [(⟨1, "a", "b", "hi", "text", none, none, none, none, 5, false, false⟩ : Message)]
        ∧ m.is_deleted = false
        ∧ formatMessage m = ⟨1, "a", "hi", 5, "text", none, none⟩)
    ∧ (⟨1, "bob", "alice", "hi", "text", none, none, none, none, 0, false, false⟩ : Message)
        ∉ (deleteChat [⟨1, "bob", "alice", "hi", "text", none, none, none, none, 0, false, false⟩]
            [] "alice" "bob").1 := by
  refine ⟨soft_delete_except_delete_chat.1
      [⟨1, "a", "b", "hi", "text", none, none, none, none, 0, false, false⟩] "a" 1, ?_, ?_, ?_⟩
  · have := soft_delete_except_delete_chat.2.1
      [⟨1, "a", "b", "hi", "text", none, none, none, none, 0, false, false⟩] "a" 1
      ⟨1, "a", "b", "hi", "text", none, none, none, none, 0, false, false⟩ (by decide)
    simpa using this
  · exact soft_delete_except_delete_chat.2.2.1
      [⟨1, "a", "b", "hi", "text", none, none, none, none, 5, false, false⟩] "a" "b"
      ⟨50, none, none⟩ ⟨1, "a", "hi", 5, "text", none, none⟩ (by decide)
  · exact soft_delete_except_delete_chat.2.2.2
      [⟨1, "bob", "alice", "hi", "text", none, none, none, none, 0, false, false⟩] []
      "alice" "bob" ⟨1, "bob", "alice", "hi", "text", none, none, none, none, 0, false, false⟩
      (by decide) (by decide)

/-! ## Absence of validation in sendMessage -/

/-- C6 counterexample: a call with sender = recipient and empty text content
is not rejected — it reports sent and persists the Message row — and a
file-type call without file metadata is likewise accepted, refuting the claim
that sendMessage rejects these with a validation error. -/
theorem send_message_no_validation_cex :
    (sendMessage [] (some "alice") "alice" "" "text" none none 1 0).2
      = SendResult.sent (mkMessage "alice" "alice" "" "text" none none 1 0)
    ∧ (sendMessage [] (some "alice") "alice" "" "text" none none 1 0).1 ≠ []
    ∧ (sendMessage [] (some "alice") "bob" "f.txt" "file" none none 1 0).2
      = SendResult.sent (mkMessage "alice" "bob" "f.txt" "file" none none 1 0) := by
  decide

/-- C6 amended: sendMessage performs no content validation — for every
authenticated call, including sender = recipient, empty text content, and
file type without file metadata, it appends the message row and reports sent;
the only client-side rejection is the unauthenticated case, which persists
nothing. -/
theorem send_message_passes_through :
    (∀ msgs uid toU content ty rt fd fid now,
        sendMessage msgs (some uid) toU content ty rt fd fid now
          = (msgs ++ [mkMessage uid toU content ty rt fd fid now],
             SendResult.sent (mkMessage uid toU content ty rt fd fid now)))
    ∧ (∀ msgs toU content ty rt fd fid now,
        sendMessage msgs none toU content ty rt fd fid now
          = (msgs, SendResult.error "No authenticated user")) :=
  ⟨fun _ _ _ _ _ _ _ _ _ => rfl, fun _ _ _ _ _ _ _ _ => rfl⟩

/-! ## markMessagesAsRead -/

theorem unreadCount_cons_pos (c : ChatSummary) (rest : List ChatSummary)
    (o p : String) (h : (c.owner_id == o && c.peer_id == p) = true) :
    unreadCount (c :: rest) o p = c.unread_count := by
  simp [unreadCount, List.find?_cons, h]

theorem unreadCount_cons_neg (c : ChatSummary) (rest : List ChatSummary)
    (o p : String) (h : (c.owner_id == o && c.peer_id == p) = false) :
    unreadCount (c :: rest) o p = unreadCount rest o p := by
  simp [unreadCount, List.find?_cons, h]

/-- C7: markMessagesAsRead resets the owner's unread count for the peer to
zero and is idempotent — a second call leaves the whole user_chats state
exactly as the first call left it. -/
theorem mark_read_idempotent :
    (∀ chats cur peer, unreadCount (markMessagesAsRead chats cur peer) cur peer = 0)
    ∧ (∀ chats cur peer,
        markMessagesAsRead (markMessagesAsRead chats cur peer) cur peer
          = markMessagesAsRead chats cur peer) := by
  constructor
  · intro chats cur peer
    induction chats with
    | nil => rfl
    | cons c rest ih =>
      by_cases h : (c.owner_id == cur && c.peer_id == peer) = true
      · simp only [markMessagesAsRead, List.map_cons, if_pos h]
        rw [unreadCount_cons_pos _ _ _ _ (by simpa using h)]
      · simp only [markMessagesAsRead, List.map_cons, if_neg h]
        rw [unreadCount_cons_neg _ _ _ _ (by simpa using h)]
        exact ih
  · intro chats cur peer
    simp only [markMessagesAsRead, List.map_map]
    apply List.map_congr_left
    intro c _
    by_cases h : (c.owner_id == cur && c.peer_id == peer) = true
    · simp [Function.comp, h]
    · simp [Function.comp, h]

/-! ## signIn (supabase-config.js lines 451-494) -/

/-- Outcome of the `users` lookup inside `signIn`: a row, the PGRST116
no-rows error, any other PostgREST error object, or a thrown exception
(caught by the surrounding try/catch). -/
inductive LookupOutcome where
  | foundUser (u : UserRow)
  | notFoundPGRST116
  | otherError (msg : String)
  | thrown (msg : String)
deriving Repr, DecidableEq

/-- What `signIn` ends up doing: proceed with the found user (updating its
online status), or fall through to `signUp(phone)`. -/
inductive SignInStep where
  | signedIn (u : UserRow)
  | signUpFallback (phone : String)
deriving Repr, DecidableEq

/-- Embeds `SupabaseClient.signIn(phone)` at the granularity of the user
lookup: `PGRST116` falls through to `signUp`, any other lookup error also
falls through to `signUp`, and the catch block around the whole body calls
`signUp` on any exception as well. -/
def signIn (phone : String) (lookup : LookupOutcome) : SignInStep :=
  match lookup with
  | LookupOutcome.foundUser u => SignInStep.signedIn u
  | LookupOutcome.notFoundPGRST116 => SignInStep.signUpFallback phone
  | LookupOutcome.otherError _ => SignInStep.signUpFallback phone
  | LookupOutcome.thrown _ => SignInStep.signUpFallback phone

/-- C8: whenever the signIn user lookup fails for any reason — confirmed
absence, any other lookup error, or an exception — the operation falls
through to creating a new user via sign-up. -/
theorem sign_in_any_failure_falls_back (phone : String) (lookup : LookupOutcome)
    (h : ∀ u, lookup ≠ LookupOutcome.foundUser u) :
    signIn phone lookup = SignInStep.signUpFallback phone := by
  cases lookup with
  | foundUser u => exact absurd rfl (h u)
  | notFoundPGRST116 => rfl
  | otherError m => rfl
  | thrown m => rfl

/-- Closed witness for sign_in_any_failure_falls_back: a transient
(non-not-found) lookup error still falls through to sign-up. -/
theorem sign_in_any_failure_falls_back_witness :
    signIn "5551234567" (LookupOutcome.otherError "network timeout")
      = SignInStep.signUpFallback "5551234567" :=
  sign_in_any_failure_falls_back "5551234567"
    (LookupOutcome.otherError "network timeout") (fun _ h => nomatch h)

/-! ## Typing signals

Modelled from the spec: the Presence Registry's `setTyping` operation lives
in the Socket.IO server (the `typing_start` / `typing_stop` events of
server/index.js, which is not present here); the client-side
`updateTypingStatus` (supabase-config.js lines 1369-1381) is a logging stub.
The definitions below follow the spec sentence for `setTyping(chatOwner,
chatPeer, isTyping)`: store (isTyping = true) or clear (isTyping = false) a
TypingSignal keyed by the chat pair, carrying an expiry that auto-clears the
signal if no refresh arrives within the timeout. -/

/-- Modelled from the spec: an ephemeral typing signal keyed by the chat
pair, with its absolute expiry time. -/
structure TypingSignal where
  chatOwner : String
  chatPeer : String
  expiresAt : Nat
deriving Repr, DecidableEq

/-- Modelled from the spec: the few-second TTL of a TypingSignal, in
milliseconds. -/
def typingTimeout : Nat := 3000

/-- Modelled from the spec: `setTyping(chatOwner, chatPeer, isTyping)` —
clear any signal stored for the pair, and when `isTyping` is true store a
fresh one expiring `typingTimeout` after `now` (a repeated call refreshes the
expiry). -/
def setTyping (reg : List TypingSignal) (chatOwner chatPeer : String)
    (isTyping : Bool) (now : Nat) : List TypingSignal :=
  let cleared := reg.filter
    (fun s => !(s.chatOwner == chatOwner && s.chatPeer == chatPeer))
  if isTyping then cleared ++ [⟨chatOwner, chatPeer, now + typingTimeout⟩]
  else cleared

/-- Modelled from the spec: a pair's typing indicator is visible while the
registry holds an unexpired signal for it. -/
def typingVisible (reg : List TypingSignal) (chatOwner chatPeer : String)
    (now : Nat) : Bool :=
  reg.any (fun s => s.chatOwner == chatOwner && s.chatPeer == chatPeer
    && decide (now < s.expiresAt))

theorem setTyping_cleared_no_match (reg : List TypingSignal)
    (chatOwner chatPeer : String) (s : TypingSignal)
    (hs : s ∈ reg.filter
      (fun s => !(s.chatOwner == chatOwner && s.chatPeer == chatPeer))) :
    (s.chatOwner == chatOwner && s.chatPeer == chatPeer) = false := by
  have h := List.of_mem_filter hs
  rwa [Bool.not_eq_true'] at h

/-- C9: setTyping stores (isTyping = true) or clears (isTyping = false) the
TypingSignal keyed by the chat pair, and a stored signal carries an expiry
that auto-clears it when no refresh arrives within the timeout. -/
theorem set_typing_stores_with_expiry :
    (∀ reg o p now, typingVisible (setTyping reg o p true now) o p now = true)
    ∧ (∀ reg o p now t, typingVisible (setTyping reg o p false now) o p t = false)
    ∧ (∀ reg o p now t, now + typingTimeout ≤ t →
        typingVisible (setTyping reg o p true now) o p t = false) := by
  refine ⟨?_, ?_, ?_⟩
  · intro reg o p now
    simp [setTyping, typingVisible, typingTimeout]
  · intro reg o p now t
    have hset : setTyping reg o p false now
        = reg.filter (fun s => !(s.chatOwner == o && s.chatPeer == p)) := by
      simp [setTyping]
    rw [hset]
    simp only [typingVisible]
    rw [List.any_eq_false]
    intro s hs
    have hnm := setTyping_cleared_no_match reg o p s hs
    rw [Bool.and_eq_true, Bool.and_eq_true]
    intro hcontra
    rw [hcontra.1.1, hcontra.1.2] at hnm
    simp at hnm
  · intro reg o p now t ht
    have hset : setTyping reg o p true now
        = reg.filter (fun s => !(s.chatOwner == o && s.chatPeer == p))
          ++ [⟨o, p, now + typingTimeout⟩] := by
      simp [setTyping]
    rw [hset]
    simp only [typingVisible]
    rw [List.any_eq_false]
    intro s hs
    rcases List.mem_append.mp hs with hs2 | hs2
    · have hnm := setTyping_cleared_no_match reg o p s hs2
      rw [Bool.and_eq_true, Bool.and_eq_true]
      intro hcontra
      rw [hcontra.1.1, hcontra.1.2] at hnm
      simp at hnm
    · have hseq : s = ⟨o, p, now + typingTimeout⟩ := by simpa using hs2
      subst hseq
      simp
      omega

/-- Closed witness for set_typing_stores_with_expiry: a signal stored at time
0 is gone at the expiry time 3000 with no refresh. -/
theorem set_typing_stores_with_expiry_witness :
    typingVisible (setTyping [] "a" "b" true 0) "a" "b" 3000 = false :=
  set_typing_stores_with_expiry.2.2 [] "a" "b" 0 3000 (by decide)

/-! ## appendMessage with chat-summary maintenance

The client-side `sendMessage` (lines 728-786) performs only the `messages`
insert; the `user_chats` columns it reads elsewhere (`unread_count`,
`last_message_content`, `last_message_timestamp` in `getUserChats`) are
maintained by the database layer (the Supabase SQL schema and its triggers,
which are not present here).  The spec states this maintenance explicitly:
on success, persist the Message row and atomically upsert both ChatSummary
rows, incrementing the unread count only on the recipient's summary. -/

/-- Modelled from the spec: the database-side upsert of one (owner, peer)
chat-summary row — update the existing row's last-message preview and
timestamp (adding 1 to its unread count when `increment` is set), or insert
a fresh row when none exists for the pair. -/
def upsertChatSummary (ownerId peerId content : String) (ts : Nat)
    (increment : Bool) : List ChatSummary → List ChatSummary
  | [] => [{ owner_id := ownerId, peer_id := peerId,
             last_message_content := content, last_message_timestamp := ts,
             unread_count := if increment then 1 else 0, is_archived := false }]
  | c :: rest =>
      if c.owner_id == ownerId && c.peer_id == peerId then
        { c with last_message_content := content, last_message_timestamp := ts,
                 unread_count := c.unread_count + (if increment then 1 else 0) }
          :: rest
      else c :: upsertChatSummary ownerId peerId content ts increment rest

/-- Modelled from the spec: `appendMessage` — the client's `sendMessage`
insert composed with the transactional summary maintenance the spec places
in the Conversation Store.  `storeOk` abstracts the transaction outcome:
when it is false the whole transaction rolls back and no mutation lands. -/
def appendMessage (msgs : List Message) (chats : List ChatSummary)
    (senderId recipientId content messageType : String) (replyTo : Option Nat)
    (fileData : Option FileData) (freshId now : Nat) (storeOk : Bool) :
    (List Message × List ChatSummary) × SendResult :=
  if storeOk then
    ((msgs ++ [mkMessage senderId recipientId content messageType replyTo
        fileData freshId now],
      upsertChatSummary recipientId senderId content now true
        (upsertChatSummary senderId recipientId content now false chats)),
     SendResult.sent (mkMessage senderId recipientId content messageType replyTo
        fileData freshId now))
  else
    ((msgs, chats), SendResult.error "WriteConflict")

theorem key_match_false (a b x y : String) (h : ¬(x = a ∧ y = b)) :
    ((a == x) && (b == y)) = false := by
  rw [Bool.eq_false_iff]
  intro hb
  rw [Bool.and_eq_true, beq_iff_eq, beq_iff_eq] at hb
  exact h ⟨hb.1.symm, hb.2.symm⟩

theorem unreadCount_upsert_same (o p c : String) (ts : Nat) (inc : Bool)
    (chats : List ChatSummary) :
    unreadCount (upsertChatSummary o p c ts inc chats) o p
      = unreadCount chats o p + (if inc then 1 else 0) := by
  induction chats with
  | nil =>
    simp only [upsertChatSummary]
    rw [unreadCount_cons_pos _ _ _ _ (by simp)]
    simp [unreadCount]
  | cons x rest ih =>
    by_cases h : (x.owner_id == o && x.peer_id == p) = true
    · simp only [upsertChatSummary, if_pos h]
      rw [unreadCount_cons_pos _ _ _ _ h, unreadCount_cons_pos _ _ _ _ (by exact h)]
    · simp only [upsertChatSummary, if_neg h]
      rw [Bool.not_eq_true] at h
      rw [unreadCount_cons_neg _ _ _ _ h, unreadCount_cons_neg _ _ _ _ h]
      exact ih

theorem unreadCount_upsert_other (o p c : String) (ts : Nat) (inc : Bool)
    (o2 p2 : String) (hdiff : ¬(o2 = o ∧ p2 = p)) (chats : List ChatSummary) :
    unreadCount (upsertChatSummary o p c ts inc chats) o2 p2
      = unreadCount chats o2 p2 := by
  induction chats with
  | nil =>
    simp only [upsertChatSummary]
    rw [unreadCount_cons_neg _ _ _ _ (key_match_false o p o2 p2 hdiff)]
  | cons x rest ih =>
    by_cases h : (x.owner_id == o && x.peer_id == p) = true
    · simp only [upsertChatSummary, if_pos h]
      by_cases hq : (x.owner_id == o2 && x.peer_id == p2) = true
      · rw [Bool.and_eq_true, beq_iff_eq, beq_iff_eq] at h hq
        exact absurd ⟨hq.1.symm.trans h.1, hq.2.symm.trans h.2⟩ hdiff
      · rw [Bool.not_eq_true] at hq
        rw [unreadCount_cons_neg _ _ _ _ (by exact hq),
          unreadCount_cons_neg _ _ _ _ hq]
    · simp only [upsertChatSummary, if_neg h]
      by_cases hq : (x.owner_id == o2 && x.peer_id == p2) = true
      · rw [unreadCount_cons_pos _ _ _ _ hq, unreadCount_cons_pos _ _ _ _ hq]
      · rw [Bool.not_eq_true] at hq
        rw [unreadCount_cons_neg _ _ _ _ hq, unreadCount_cons_neg _ _ _ _ hq]
        exact ih

theorem getMessages_append_fresh_count (msgs : List Message) (m : Message)
    (cur peer : String) (limit : Nat)
    (hsel : msgSelected cur peer ⟨limit, none, none⟩ m = true)
    (hfresh : ∀ x ∈ msgs, x.id ≠ m.id)
    (hlimit : msgs.length < limit) :
    (getMessages (msgs ++ [m]) cur peer ⟨limit, none, none⟩).messages.countP
      (fun f => f.id == m.id) = 1 := by
  have hfilter : (msgs ++ [m]).filter (msgSelected cur peer ⟨limit, none, none⟩)
      = msgs.filter (msgSelected cur peer ⟨limit, none, none⟩) ++ [m] := by
    rw [List.filter_append]
    simp [hsel]
  have hlen : (sortDesc ((msgs ++ [m]).filter
      (msgSelected cur peer ⟨limit, none, none⟩))).length ≤ limit := by
    rw [(sortDesc_perm _).length_eq, hfilter]
    have h1 := List.length_filter_le (msgSelected cur peer ⟨limit, none, none⟩) msgs
    simp only [List.length_append, List.length_cons, List.length_nil]
    omega
  simp only [getMessages]
  rw [List.take_of_length_le hlen, List.countP_map, List.countP_reverse,
    (sortDesc_perm _).countP_eq, hfilter, List.countP_append]
  simp only [Function.comp_def]
  have hz : (msgs.filter (msgSelected cur peer ⟨limit, none, none⟩)).countP
      (fun x => (formatMessage x).id == m.id) = 0 := by
    rw [List.countP_eq_zero]
    intro a ha
    have hamem : a ∈ msgs := (List.mem_filter.mp ha).1
    simp [formatMessage, hfresh a hamem]
  rw [hz]
  simp [List.countP_cons, formatMessage]

/-- C1 (summary maintenance modelled from the spec): a successful
appendMessage lands the Message row and both ChatSummary mutations together —
the appended message is subsequently returned exactly once by listMessages
over the pair, the recipient's unread count increases by exactly one, the
sender's unread count is unchanged — and a failed transaction lands no
mutation at all. -/
theorem append_message_transactional (msgs : List Message)
    (chats : List ChatSummary)
    (senderId recipientId content messageType : String) (replyTo : Option Nat)
    (fileData : Option FileData) (freshId now limit : Nat)
    (hner : senderId ≠ recipientId)
    (hfresh : ∀ m ∈ msgs, m.id ≠ freshId)
    (hlimit : msgs.length < limit) :
    ((getMessages (appendMessage msgs chats senderId recipientId content
        messageType replyTo fileData freshId now true).1.1 senderId recipientId
        ⟨limit, none, none⟩).messages.countP (fun f => f.id == freshId) = 1)
    ∧ unreadCount (appendMessage msgs chats senderId recipientId content
        messageType replyTo fileData freshId now true).1.2 recipientId senderId
        = unreadCount chats recipientId senderId + 1
    ∧ unreadCount (appendMessage msgs chats senderId recipientId content
        messageType replyTo fileData freshId now true).1.2 senderId recipientId
        = unreadCount chats senderId recipientId
    ∧ appendMessage msgs chats senderId recipientId content messageType replyTo
        fileData freshId now false
        = ((msgs, chats), SendResult.error "WriteConflict") := by
  refine ⟨?_, ?_, ?_, rfl⟩
  · have hsel : msgSelected senderId recipientId ⟨limit, none, none⟩
        (mkMessage senderId recipientId content messageType replyTo fileData
          freshId now) = true := by
      simp [msgSelected, msgInChat, mkMessage]
    have hfr : ∀ x ∈ msgs, x.id ≠ (mkMessage senderId recipientId content
        messageType replyTo fileData freshId now).id := by
      intro x hx
      simpa [mkMessage] using hfresh x hx
    exact getMessages_append_fresh_count msgs _ senderId recipientId limit hsel
      hfr hlimit
  · show unreadCount (upsertChatSummary recipientId senderId content now true
        (upsertChatSummary senderId recipientId content now false chats))
        recipientId senderId
      = unreadCount chats recipientId senderId + 1
    rw [unreadCount_upsert_same recipientId senderId content now true
        (upsertChatSummary senderId recipientId content now false chats),
      unreadCount_upsert_other senderId recipientId content now false
        recipientId senderId (fun hh => hner hh.2) chats]
    simp
  · show unreadCount (upsertChatSummary recipientId senderId content now true
        (upsertChatSummary senderId recipientId content now false chats))
        senderId recipientId
      = unreadCount chats senderId recipientId
    rw [unreadCount_upsert_other recipientId senderId content now true
        senderId recipientId (fun hh => hner hh.1)
        (upsertChatSummary senderId recipientId content now false chats),
      unreadCount_upsert_same senderId recipientId content now false chats]
    simp

/-- Closed witness for append_message_transactional at concrete inputs:
sending "hi" from "a" to "b" over empty tables. -/
theorem append_message_transactional_witness :
    ((getMessages (appendMessage [] [] "a" "b" "hi" "text" none none 1 5 true).1.1
        "a" "b" ⟨1, none, none⟩).messages.countP (fun f => f.id == 1) = 1)
    ∧ unreadCount (appendMessage [] [] "a" "b" "hi" "text" none none 1 5 true).1.2
        "b" "a" = unreadCount [] "b" "a" + 1
    ∧ unreadCount (appendMessage [] [] "a" "b" "hi" "text" none none 1 5 true).1.2
        "a" "b" = unreadCount [] "a" "b"
    ∧ appendMessage [] [] "a" "b" "hi" "text" none none 1 5 false
        = (([], []), SendResult.error "WriteConflict") :=
  append_message_transactional [] [] "a" "b" "hi" "text" none none 1 5 1
    (by decide) (by decide) (by decide)

end Digidad
